import Mathlib

/-!
Verification development for the Alpha personal-finance application.

This file gives a shallow embedding of the position-enrichment and
portfolio-aggregation logic (`positions.py`), the market-price adapter
(`datafetch.py`), and the validated CRUD services (`finance.py`,
`trading.py`), and proves the claimed properties about them.

Modelling conventions:
* Python floats are modelled by `ℚ` (exact arithmetic); the claims under
  scrutiny concern which formulas the code applies, not IEEE rounding.
* Python dictionaries used as records become structures with `Option`
  fields for keys that may be absent or `None`.
* Network calls (`yfinance`, `ccxt`) are oracles passed in as parameters:
  a fetch result is an `Except String ℚ` (a `DataFetchError` message or a
  price), a quote provider response is a record of optional fields.
* Mutation of the SQLite store is explicit state passing: an operation
  takes the table contents and returns the (possibly unchanged) contents
  together with an `Except` result.
-/

/-- A stored row of the `positions` table, as handed to
`get_position_with_live_price` (positions.py). -/
structure Position where
  symbol : String
  asset_type : String
  entry_date : String
  entry_price : ℚ
  quantity : ℚ
deriving Repr, DecidableEq

/-- The enriched position dictionary built by `get_position_with_live_price`
(positions.py lines 129-178).  `Option` fields are `none` exactly when the
Python code stores `None` (or, for `price_error`, omits the key). -/
structure EnrichedPosition where
  symbol : String
  asset_type : String
  entry_date : String
  entry_price : ℚ
  quantity : ℚ
  live_price : Option ℚ
  entry_value : ℚ
  current_value : Option ℚ
  unrealized_pnl : Option ℚ
  unrealized_pnl_percent : Option ℚ
  price_change : Option ℚ
  price_change_percent : Option ℚ
  price_error : Option String
deriving Repr, DecidableEq

/-- `OpenPositions.get_position_with_live_price` (positions.py lines 112-178).
The live fetch `get_market_price` is abstracted as its outcome `fetched`:
`.ok p` for a returned price, `.error e` for a raised `DataFetchError`.
On success all derived fields are computed from `entry_price`, `quantity`
and the live price; on fetch failure only `entry_value` is computed and all
price-dependent fields are set to `none`, with the error text retained. -/
def get_position_with_live_price (position : Position)
    (fetched : Except String ℚ) : EnrichedPosition :=
  match fetched with
  | .ok live_price =>
    let entry_price := position.entry_price
    let quantity := position.quantity
    let entry_value := entry_price * quantity
    let current_value := live_price * quantity
    let unrealized_pnl := current_value - entry_value
    { symbol := position.symbol
      asset_type := position.asset_type
      entry_date := position.entry_date
      entry_price := entry_price
      quantity := quantity
      live_price := some live_price
      entry_value := entry_value
      current_value := some current_value
      unrealized_pnl := some unrealized_pnl
      unrealized_pnl_percent :=
        some (if entry_value > 0 then unrealized_pnl / entry_value * 100 else 0)
      price_change := some (live_price - entry_price)
      price_change_percent :=
        some (if entry_price > 0 then (live_price - entry_price) / entry_price * 100 else 0)
      price_error := none }
  | .error e =>
    { symbol := position.symbol
      asset_type := position.asset_type
      entry_date := position.entry_date
      entry_price := position.entry_price
      quantity := position.quantity
      live_price := none
      entry_value := position.entry_price * position.quantity
      current_value := none
      unrealized_pnl := none
      unrealized_pnl_percent := none
      price_change := none
      price_change_percent := none
      price_error := some e }

/-- `OpenPositions.get_all_positions_with_live_prices` (positions.py lines
183-205): enrich every stored position in order, each with its own
independent fetch outcome. -/
def get_all_positions_with_live_prices (positions : List Position)
    (fetch : Position → Except String ℚ) : List EnrichedPosition :=
  positions.map (fun p => get_position_with_live_price p (fetch p))

/-- C3: on a successful fetch with live price `p`, the enriched record has
`entry_value = entry_price * quantity`, `current_value = p * quantity`, and
`unrealized_pnl = current_value - entry_value`, exactly. -/
theorem enrich_success_pnl_exact (position : Position) (p : ℚ) :
    (get_position_with_live_price position (.ok p)).entry_value =
      position.entry_price * position.quantity ∧
    (get_position_with_live_price position (.ok p)).current_value =
      some (p * position.quantity) ∧
    (get_position_with_live_price position (.ok p)).unrealized_pnl =
      some (p * position.quantity -
        (get_position_with_live_price position (.ok p)).entry_value) := by
  refine ⟨rfl, rfl, ?_⟩
  simp [get_position_with_live_price]

/-- C2: on a fetch failure the enriched record still carries
`entry_value = entry_price * quantity`, has `live_price`, `current_value`,
`unrealized_pnl`, `unrealized_pnl_percent` and `price_change_percent` all
absent, and carries the error text; and batch enrichment is positionwise:
the `i`-th enriched record depends only on the `i`-th position and its own
fetch outcome, so one failure cannot prevent any other position from being
enriched. -/
theorem enrich_failure_isolated (position : Position) (msg : String)
    (positions : List Position) (fetch : Position → Except String ℚ) (i : Nat) :
    (get_position_with_live_price position (.error msg)).entry_value =
      position.entry_price * position.quantity ∧
    (get_position_with_live_price position (.error msg)).live_price = none ∧
    (get_position_with_live_price position (.error msg)).current_value = none ∧
    (get_position_with_live_price position (.error msg)).unrealized_pnl = none ∧
    (get_position_with_live_price position (.error msg)).unrealized_pnl_percent = none ∧
    (get_position_with_live_price position (.error msg)).price_change_percent = none ∧
    (get_position_with_live_price position (.error msg)).price_error = some msg ∧
    (get_all_positions_with_live_prices positions fetch).length = positions.length ∧
    (get_all_positions_with_live_prices positions fetch).get? i =
      (positions.get? i).map (fun q => get_position_with_live_price q (fetch q)) := by
  refine ⟨rfl, rfl, rfl, rfl, rfl, rfl, rfl, ?_, ?_⟩
  · simp [get_all_positions_with_live_prices]
  · simp [get_all_positions_with_live_prices]

/-- Python truthiness of `position.get('price_error')` in
`calculate_portfolio_pnl` (positions.py line 252): the key is present and
its value is a non-empty string. -/
def priceErrorTruthy (e : EnrichedPosition) : Bool :=
  match e.price_error with
  | some msg => !(msg == "")
  | none => false

/-- An enriched position that reaches the data branch of the aggregation
loop (positions.py line 256): no truthy `price_error` and a present
`current_value`.  These are exactly the records appended to
`valid_positions`. -/
def pyValid (e : EnrichedPosition) : Bool :=
  !priceErrorTruthy e && e.current_value.isSome

/-- `current_value` with default 0; only read on records whose
`current_value` is present. -/
def cvD (e : EnrichedPosition) : ℚ := e.current_value.getD 0

/-- `unrealized_pnl` with default 0.  For every record built by
`get_position_with_live_price`, `unrealized_pnl` is present whenever
`current_value` is, so the default is never read on the program's own
records (on a record with `current_value` present but `unrealized_pnl`
absent the Python loop would instead raise a `TypeError`, re-raised as
`PositionsError`). -/
def pnlD (e : EnrichedPosition) : ℚ := e.unrealized_pnl.getD 0

/-- `unrealized_pnl_percent` with default 0; same caveat as `pnlD`. -/
def pnlPctD (e : EnrichedPosition) : ℚ := e.unrealized_pnl_percent.getD 0

/-- One value of the `by_asset_type` dictionary in the portfolio summary
(positions.py lines 242-247, with `unrealized_pnl_percent` added by the
final pass at lines 286-290; it is 0 during the loop). -/
structure AssetBucket where
  count : Nat
  entry_value : ℚ
  current_value : ℚ
  unrealized_pnl : ℚ
  unrealized_pnl_percent : ℚ
deriving Repr, DecidableEq

/-- The fresh bucket inserted when an asset type is first seen. -/
def AssetBucket.init : AssetBucket :=
  { count := 0, entry_value := 0, current_value := 0, unrealized_pnl := 0
    unrealized_pnl_percent := 0 }

/-- A Python dict preserving insertion order, modelled as an association
list: lookup of key `k`. -/
def lookupBucket : List (String × AssetBucket) → String → Option AssetBucket
  | [], _ => none
  | (k', b) :: rest, k => if k' = k then some b else lookupBucket rest k

/-- Update the value at key `k` in place, or insert `f AssetBucket.init`
at the end if the key is new (Python dict insertion order). -/
def updateBucket : List (String × AssetBucket) → String →
    (AssetBucket → AssetBucket) → List (String × AssetBucket)
  | [], k, f => [(k, f AssetBucket.init)]
  | (k', b) :: rest, k, f =>
    if k' = k then (k', f b) :: rest else (k', b) :: updateBucket rest k f

/-- The mutable accumulators of the loop in `calculate_portfolio_pnl`
(positions.py lines 222-266). -/
structure LoopState where
  total_entry_value : ℚ
  total_current_value : ℚ
  total_unrealized_pnl : ℚ
  positions_with_data : Nat
  positions_with_errors : Nat
  by_asset_type : List (String × AssetBucket)
  valid_positions : List EnrichedPosition
deriving Repr

/-- Initial accumulator values (positions.py lines 222-236). -/
def LoopState.init : LoopState :=
  { total_entry_value := 0, total_current_value := 0, total_unrealized_pnl := 0
    positions_with_data := 0, positions_with_errors := 0
    by_asset_type := [], valid_positions := [] }

/-- The body of the `for position in enhanced_positions` loop
(positions.py lines 238-266): the asset-type bucket's `count` and
`entry_value` are updated unconditionally; a truthy `price_error` bumps the
error counter and skips the rest; a present `current_value` feeds the grand
totals, the bucket's live fields, and `valid_positions`. -/
def pnlStep (s : LoopState) (p : EnrichedPosition) : LoopState :=
  let s := { s with
    by_asset_type := updateBucket s.by_asset_type p.asset_type
      (fun b => { b with count := b.count + 1
                         entry_value := b.entry_value + p.entry_value }) }
  if priceErrorTruthy p then
    { s with positions_with_errors := s.positions_with_errors + 1 }
  else if p.current_value.isSome then
    { s with
      positions_with_data := s.positions_with_data + 1
      total_entry_value := s.total_entry_value + p.entry_value
      total_current_value := s.total_current_value + cvD p
      total_unrealized_pnl := s.total_unrealized_pnl + pnlD p
      by_asset_type := updateBucket s.by_asset_type p.asset_type
        (fun b => { b with current_value := b.current_value + cvD p
                           unrealized_pnl := b.unrealized_pnl + pnlD p })
      valid_positions := s.valid_positions ++ [p] }
  else s

/-- Python's `max(l, key=key)` for a possibly empty list: `none` on `[]`,
otherwise the first element of maximal key (the running best is replaced
only on a strictly greater key). -/
def pyMaxBy {α : Type} (key : α → ℚ) : List α → Option α
  | [] => none
  | x :: xs => some (xs.foldl (fun best y => if key y > key best then y else best) x)

/-- Python's `min(l, key=key)` for a possibly empty list: `none` on `[]`,
otherwise the first element of minimal key. -/
def pyMinBy {α : Type} (key : α → ℚ) : List α → Option α
  | [] => none
  | x :: xs => some (xs.foldl (fun best y => if key y < key best then y else best) x)

/-- The dictionary returned by `calculate_portfolio_pnl` (positions.py
lines 209-292), minus the wall-clock `last_updated` stamp. -/
structure PortfolioSummary where
  total_positions : Nat
  total_entry_value : ℚ
  total_current_value : ℚ
  total_unrealized_pnl : ℚ
  total_unrealized_pnl_percent : ℚ
  positions_with_data : Nat
  positions_with_errors : Nat
  best_performer : Option EnrichedPosition
  worst_performer : Option EnrichedPosition
  by_asset_type : List (String × AssetBucket)
deriving Repr

/-- `OpenPositions.calculate_portfolio_pnl` (positions.py lines 209-292),
taking the already-enriched positions as input: run the accumulation loop,
compute the overall percentage (only when `total_entry_value > 0`), select
best and worst performers with Python `max`/`min` over `valid_positions`,
and add each asset-type bucket's percentage (only when its `entry_value`
is positive). -/
def calculate_portfolio_pnl (enhanced_positions : List EnrichedPosition) :
    PortfolioSummary :=
  let s := enhanced_positions.foldl pnlStep LoopState.init
  { total_positions := enhanced_positions.length
    total_entry_value := s.total_entry_value
    total_current_value := s.total_current_value
    total_unrealized_pnl := s.total_unrealized_pnl
    total_unrealized_pnl_percent :=
      if s.total_entry_value > 0 then
        s.total_unrealized_pnl / s.total_entry_value * 100
      else 0
    positions_with_data := s.positions_with_data
    positions_with_errors := s.positions_with_errors
    best_performer := pyMaxBy pnlPctD s.valid_positions
    worst_performer := pyMinBy pnlPctD s.valid_positions
    by_asset_type := s.by_asset_type.map (fun kb => (kb.1,
      { kb.2 with unrealized_pnl_percent :=
          if kb.2.entry_value > 0 then
            kb.2.unrealized_pnl / kb.2.entry_value * 100
          else 0 })) }

/-- Sum of `f` over a list, matching the Python `+=` accumulation order. -/
def sumBy {α : Type} (f : α → ℚ) (l : List α) : ℚ := (l.map f).sum

/-- `entry_value` of the bucket at key `t`, or 0 if the key is absent. -/
def bucketEV (m : List (String × AssetBucket)) (t : String) : ℚ :=
  ((lookupBucket m t).getD AssetBucket.init).entry_value

/-- Looking up `t` after updating key `k`: the updated entry if `t = k`,
the old entry otherwise. -/
lemma lookupBucket_updateBucket (k t : String) (f : AssetBucket → AssetBucket) :
    ∀ m : List (String × AssetBucket),
    lookupBucket (updateBucket m k f) t =
      if t = k then some (f ((lookupBucket m k).getD AssetBucket.init))
      else lookupBucket m t := by
  intro m
  induction m with
  | nil =>
    by_cases h : t = k
    · subst h; simp [updateBucket, lookupBucket]
    · have h' : ¬k = t := fun hh => h hh.symm
      simp [updateBucket, lookupBucket, h, h']
  | cons hd rest ih =>
    obtain ⟨k', b⟩ := hd
    by_cases h1 : k' = k
    · subst h1
      by_cases h2 : k' = t
      · subst h2
        simp [updateBucket, lookupBucket]
      · have h2' : ¬t = k' := fun hh => h2 hh.symm
        simp [updateBucket, lookupBucket, h2, h2']
    · by_cases h2 : k' = t
      · have h3 : ¬t = k := fun hh => h1 (h2.trans hh)
        simp [updateBucket, lookupBucket, h1, h2, h3]
      · simp [updateBucket, lookupBucket, h1, h2, ih]

/-- Updating key `k` with a function that adds `pv` to `entry_value` adds
`pv` to `bucketEV` at `k` and leaves every other key unchanged. -/
lemma bucketEV_updateBucket_add (m : List (String × AssetBucket)) (k t : String)
    (pv : ℚ) (g : AssetBucket → AssetBucket)
    (hg : ∀ b, (g b).entry_value = b.entry_value + pv) :
    bucketEV (updateBucket m k g) t = bucketEV m t + (if t = k then pv else 0) := by
  unfold bucketEV
  rw [lookupBucket_updateBucket]
  by_cases h : t = k
  · simp [h, hg]
  · simp [h]

/-- Updating key `k` with a function that keeps `entry_value` leaves
`bucketEV` unchanged at every key. -/
lemma bucketEV_updateBucket_keep (m : List (String × AssetBucket)) (k t : String)
    (g : AssetBucket → AssetBucket)
    (hg : ∀ b, (g b).entry_value = b.entry_value) :
    bucketEV (updateBucket m k g) t = bucketEV m t := by
  unfold bucketEV
  rw [lookupBucket_updateBucket]
  by_cases h : t = k
  · simp [h, hg]
  · simp [h]

/-- Full characterisation of the accumulation loop of
`calculate_portfolio_pnl`: after folding `pnlStep` over `l`, the grand
totals have accumulated `entry_value`, `current_value` and
`unrealized_pnl` over exactly the positions reaching the data branch,
the two counters count data-branch and truthy-error positions,
`valid_positions` extends by exactly the data-branch positions in input
order, and each asset-type bucket's `entry_value` has accumulated over
all positions of that asset type, fetch success or not. -/
lemma pnlLoop_spec : ∀ (l : List EnrichedPosition) (s : LoopState),
    (l.foldl pnlStep s).total_entry_value
        = s.total_entry_value + sumBy EnrichedPosition.entry_value (l.filter pyValid) ∧
    (l.foldl pnlStep s).total_current_value
        = s.total_current_value + sumBy cvD (l.filter pyValid) ∧
    (l.foldl pnlStep s).total_unrealized_pnl
        = s.total_unrealized_pnl + sumBy pnlD (l.filter pyValid) ∧
    (l.foldl pnlStep s).positions_with_data
        = s.positions_with_data + (l.filter pyValid).length ∧
    (l.foldl pnlStep s).positions_with_errors
        = s.positions_with_errors + l.countP priceErrorTruthy ∧
    (l.foldl pnlStep s).valid_positions = s.valid_positions ++ l.filter pyValid ∧
    ∀ t, bucketEV (l.foldl pnlStep s).by_asset_type t
        = bucketEV s.by_asset_type t
          + sumBy EnrichedPosition.entry_value
              (l.filter (fun e => e.asset_type == t)) := by
  intro l
  induction l with
  | nil => intro s; simp [sumBy]
  | cons p l ih =>
    intro s
    have hstep : (p :: l).foldl pnlStep s = l.foldl pnlStep (pnlStep s p) := rfl
    obtain ⟨ih1, ih2, ih3, ih4, ih5, ih6, ih7⟩ := ih (pnlStep s p)
    by_cases hE : priceErrorTruthy p
    · have hvalid : pyValid p = false := by simp [pyValid, hE]
      have hver : (pnlStep s p).positions_with_errors = s.positions_with_errors + 1 := by
        simp [pnlStep, hE]
      have hkeep : (pnlStep s p).total_entry_value = s.total_entry_value ∧
          (pnlStep s p).total_current_value = s.total_current_value ∧
          (pnlStep s p).total_unrealized_pnl = s.total_unrealized_pnl ∧
          (pnlStep s p).positions_with_data = s.positions_with_data ∧
          (pnlStep s p).valid_positions = s.valid_positions := by
        simp [pnlStep, hE]
      have hbucket : ∀ t, bucketEV (pnlStep s p).by_asset_type t
          = bucketEV s.by_asset_type t + (if t = p.asset_type then p.entry_value else 0) := by
        intro t
        simp only [pnlStep, hE, if_true]
        exact bucketEV_updateBucket_add _ _ _ _ _ (fun b => rfl)
      obtain ⟨hk1, hk2, hk3, hk4, hk5⟩ := hkeep
      refine ⟨?_, ?_, ?_, ?_, ?_, ?_, ?_⟩
      · rw [hstep, ih1, hk1]; simp [hvalid]
      · rw [hstep, ih2, hk2]; simp [hvalid]
      · rw [hstep, ih3, hk3]; simp [hvalid]
      · rw [hstep, ih4, hk4]; simp [hvalid]
      · rw [hstep, ih5, hver]; simp [List.countP_cons, hE]; omega
      · rw [hstep, ih6, hk5]; simp [hvalid]
      · intro t
        rw [hstep, ih7 t, hbucket t]
        by_cases ht : p.asset_type = t
        · simp [List.filter_cons, ht, sumBy]; ring
        · have ht' : ¬t = p.asset_type := fun hh => ht hh.symm
          simp [List.filter_cons, ht, ht', sumBy]
    · by_cases hC : p.current_value.isSome
      · have hvalid : pyValid p = true := by simp [pyValid, hE, hC]
        have hdata : (pnlStep s p).total_entry_value = s.total_entry_value + p.entry_value ∧
            (pnlStep s p).total_current_value = s.total_current_value + cvD p ∧
            (pnlStep s p).total_unrealized_pnl = s.total_unrealized_pnl + pnlD p ∧
            (pnlStep s p).positions_with_data = s.positions_with_data + 1 ∧
            (pnlStep s p).positions_with_errors = s.positions_with_errors ∧
            (pnlStep s p).valid_positions = s.valid_positions ++ [p] := by
          simp [pnlStep, hE, hC]
        have hbucket : ∀ t, bucketEV (pnlStep s p).by_asset_type t
            = bucketEV s.by_asset_type t + (if t = p.asset_type then p.entry_value else 0) := by
          intro t
          simp only [pnlStep, hE, hC, if_false, if_true, Bool.false_eq_true]
          rw [bucketEV_updateBucket_keep
            (updateBucket s.by_asset_type p.asset_type
              (fun b => { b with count := b.count + 1
                                 entry_value := b.entry_value + p.entry_value }))
            p.asset_type t
            (fun b => { b with current_value := b.current_value + cvD p
                               unrealized_pnl := b.unrealized_pnl + pnlD p })
            (fun b => rfl)]
          exact bucketEV_updateBucket_add _ _ _ _ _ (fun b => rfl)
        obtain ⟨hd1, hd2, hd3, hd4, hd5, hd6⟩ := hdata
        refine ⟨?_, ?_, ?_, ?_, ?_, ?_, ?_⟩
        · rw [hstep, ih1, hd1]; simp [hvalid, sumBy]; ring
        · rw [hstep, ih2, hd2]; simp [hvalid, sumBy]; ring
        · rw [hstep, ih3, hd3]; simp [hvalid, sumBy]; ring
        · rw [hstep, ih4, hd4]; simp [hvalid]; omega
        · rw [hstep, ih5, hd5]; simp [List.countP_cons, hE]
        · rw [hstep, ih6, hd6]; simp [hvalid]
        · intro t
          rw [hstep, ih7 t, hbucket t]
          by_cases ht : p.asset_type = t
          · simp [List.filter_cons, ht, sumBy]; ring
          · have ht' : ¬t = p.asset_type := fun hh => ht hh.symm
            simp [List.filter_cons, ht, ht', sumBy]
      · have hvalid : pyValid p = false := by simp [pyValid, hE, hC]
        have hkeep : (pnlStep s p).total_entry_value = s.total_entry_value ∧
            (pnlStep s p).total_current_value = s.total_current_value ∧
            (pnlStep s p).total_unrealized_pnl = s.total_unrealized_pnl ∧
            (pnlStep s p).positions_with_data = s.positions_with_data ∧
            (pnlStep s p).positions_with_errors = s.positions_with_errors ∧
            (pnlStep s p).valid_positions = s.valid_positions := by
          simp [pnlStep, hE, hC]
        have hbucket : ∀ t, bucketEV (pnlStep s p).by_asset_type t
            = bucketEV s.by_asset_type t + (if t = p.asset_type then p.entry_value else 0) := by
          intro t
          simp only [pnlStep, hE, hC, if_false, if_true, Bool.false_eq_true]
          exact bucketEV_updateBucket_add _ _ _ _ _ (fun b => rfl)
        obtain ⟨hk1, hk2, hk3, hk4, hk5, hk6⟩ := hkeep
        refine ⟨?_, ?_, ?_, ?_, ?_, ?_, ?_⟩
        · rw [hstep, ih1, hk1]; simp [hvalid]
        · rw [hstep, ih2, hk2]; simp [hvalid]
        · rw [hstep, ih3, hk3]; simp [hvalid]
        · rw [hstep, ih4, hk4]; simp [hvalid]
        · rw [hstep, ih5, hk5]; simp [List.countP_cons, hE]
        · rw [hstep, ih6, hk6]; simp [hvalid]
        · intro t
          rw [hstep, ih7 t, hbucket t]
          by_cases ht : p.asset_type = t
          · simp [List.filter_cons, ht, sumBy]; ring
          · have ht' : ¬t = p.asset_type := fun hh => ht hh.symm
            simp [List.filter_cons, ht, ht', sumBy]

/-- Invariant of the fold implementing Python `max(·, key)`: the result
dominates the seed and every list element, and it is the first element of
`acc :: xs` whose key reaches the maximum (Python replaces the running
best only on a strictly greater key, so ties keep the earlier element). -/
lemma pyMaxFold_spec {α : Type} (key : α → ℚ) :
    ∀ (xs : List α) (acc : α),
    key acc ≤ key (xs.foldl (fun best y => if key y > key best then y else best) acc) ∧
    (∀ y ∈ xs, key y ≤ key (xs.foldl (fun best y => if key y > key best then y else best) acc)) ∧
    (acc :: xs).find?
        (fun x => decide (key (xs.foldl (fun best y => if key y > key best then y else best) acc) ≤ key x))
      = some (xs.foldl (fun best y => if key y > key best then y else best) acc) := by
  intro xs
  induction xs with
  | nil =>
    intro acc
    refine ⟨le_refl _, by simp, ?_⟩
    simp [List.find?]
  | cons y ys ih =>
    intro acc
    by_cases h : key y > key acc
    · obtain ⟨h1, h2, h3⟩ := ih y
      have hred : (y :: ys).foldl (fun best y => if key y > key best then y else best) acc
          = ys.foldl (fun best y => if key y > key best then y else best) y := by
        simp [List.foldl_cons, h]
      rw [hred]
      refine ⟨le_of_lt (lt_of_lt_of_le h h1), ?_, ?_⟩
      · intro z hz
        rcases List.mem_cons.mp hz with hz | hz
        · exact hz ▸ h1
        · exact h2 z hz
      · have hacc : ¬ key (ys.foldl (fun best y => if key y > key best then y else best) y) ≤ key acc :=
          not_le.mpr (lt_of_lt_of_le h h1)
        rw [List.find?_cons_of_neg _ (by simpa using hacc)]
        exact h3
    · obtain ⟨h1, h2, h3⟩ := ih acc
      have hred : (y :: ys).foldl (fun best y => if key y > key best then y else best) acc
          = ys.foldl (fun best y => if key y > key best then y else best) acc := by
        simp [List.foldl_cons, h]
      rw [hred]
      refine ⟨h1, ?_, ?_⟩
      · intro z hz
        rcases List.mem_cons.mp hz with hz | hz
        · exact hz ▸ le_trans (le_of_not_lt h) h1
        · exact h2 z hz
      · by_cases hacc : key (ys.foldl (fun best y => if key y > key best then y else best) acc) ≤ key acc
        · rw [List.find?_cons_of_pos _ (by simpa using hacc)] at h3
          rw [List.find?_cons_of_pos _ (by simpa using hacc)]
          exact h3
        · have hy : ¬ key (ys.foldl (fun best y => if key y > key best then y else best) acc) ≤ key y :=
            fun hh => hacc (le_trans hh (le_of_not_lt h))
          rw [List.find?_cons_of_neg _ (by simpa using hacc)] at h3
          rw [List.find?_cons_of_neg _ (by simpa using hacc)]
          rw [List.find?_cons_of_neg _ (by simpa using hy)]
          exact h3

/-- Invariant of the fold implementing Python `min(·, key)`: mirror image
of `pyMaxFold_spec`. -/
lemma pyMinFold_spec {α : Type} (key : α → ℚ) :
    ∀ (xs : List α) (acc : α),
    key (xs.foldl (fun best y => if key y < key best then y else best) acc) ≤ key acc ∧
    (∀ y ∈ xs, key (xs.foldl (fun best y => if key y < key best then y else best) acc) ≤ key y) ∧
    (acc :: xs).find?
        (fun x => decide (key x ≤ key (xs.foldl (fun best y => if key y < key best then y else best) acc)))
      = some (xs.foldl (fun best y => if key y < key best then y else best) acc) := by
  intro xs
  induction xs with
  | nil =>
    intro acc
    refine ⟨le_refl _, by simp, ?_⟩
    simp [List.find?]
  | cons y ys ih =>
    intro acc
    by_cases h : key y < key acc
    · obtain ⟨h1, h2, h3⟩ := ih y
      have hred : (y :: ys).foldl (fun best y => if key y < key best then y else best) acc
          = ys.foldl (fun best y => if key y < key best then y else best) y := by
        simp [List.foldl_cons, h]
      rw [hred]
      refine ⟨le_of_lt (lt_of_le_of_lt h1 h), ?_, ?_⟩
      · intro z hz
        rcases List.mem_cons.mp hz with hz | hz
        · exact hz ▸ h1
        · exact h2 z hz
      · have hacc : ¬ key acc ≤ key (ys.foldl (fun best y => if key y < key best then y else best) y) :=
          not_le.mpr (lt_of_le_of_lt h1 h)
        rw [List.find?_cons_of_neg _ (by simpa using hacc)]
        exact h3
    · obtain ⟨h1, h2, h3⟩ := ih acc
      have hred : (y :: ys).foldl (fun best y => if key y < key best then y else best) acc
          = ys.foldl (fun best y => if key y < key best then y else best) acc := by
        simp [List.foldl_cons, h]
      rw [hred]
      refine ⟨h1, ?_, ?_⟩
      · intro z hz
        rcases List.mem_cons.mp hz with hz | hz
        · exact hz ▸ le_trans h1 (le_of_not_lt h)
        · exact h2 z hz
      · by_cases hacc : key acc ≤ key (ys.foldl (fun best y => if key y < key best then y else best) acc)
        · rw [List.find?_cons_of_pos _ (by simpa using hacc)] at h3
          rw [List.find?_cons_of_pos _ (by simpa using hacc)]
          exact h3
        · have hy : ¬ key y ≤ key (ys.foldl (fun best y => if key y < key best then y else best) acc) :=
            fun hh => hacc (le_trans (le_of_not_lt h) hh)
          rw [List.find?_cons_of_neg _ (by simpa using hacc)] at h3
          rw [List.find?_cons_of_neg _ (by simpa using hacc)]
          rw [List.find?_cons_of_neg _ (by simpa using hy)]
          exact h3

/-- `pyMaxBy` on a nonempty list returns a member that dominates every
element and is the first element attaining the maximum key. -/
lemma pyMaxBy_spec {α : Type} (key : α → ℚ) (l : List α) (m : α)
    (h : pyMaxBy key l = some m) :
    m ∈ l ∧ (∀ y ∈ l, key y ≤ key m) ∧
    l.find? (fun x => decide (key m ≤ key x)) = some m := by
  match l with
  | [] => simp [pyMaxBy] at h
  | x :: xs =>
    have hm : m = xs.foldl (fun best y => if key y > key best then y else best) x := by
      simpa [pyMaxBy] using h.symm
    obtain ⟨h1, h2, h3⟩ := pyMaxFold_spec key xs x
    subst hm
    refine ⟨List.mem_of_find?_eq_some h3, ?_, h3⟩
    intro y hy
    rcases List.mem_cons.mp hy with hy | hy
    · exact hy ▸ h1
    · exact h2 y hy

/-- `pyMinBy` on a nonempty list returns a member that is dominated by
every element and is the first element attaining the minimum key. -/
lemma pyMinBy_spec {α : Type} (key : α → ℚ) (l : List α) (m : α)
    (h : pyMinBy key l = some m) :
    m ∈ l ∧ (∀ y ∈ l, key m ≤ key y) ∧
    l.find? (fun x => decide (key x ≤ key m)) = some m := by
  match l with
  | [] => simp [pyMinBy] at h
  | x :: xs =>
    have hm : m = xs.foldl (fun best y => if key y < key best then y else best) x := by
      simpa [pyMinBy] using h.symm
    obtain ⟨h1, h2, h3⟩ := pyMinFold_spec key xs x
    subst hm
    refine ⟨List.mem_of_find?_eq_some h3, ?_, h3⟩
    intro y hy
    rcases List.mem_cons.mp hy with hy | hy
    · exact hy ▸ h1
    · exact h2 y hy

/-- Mapping a value transformation over the bucket dictionary commutes
with lookup. -/
lemma lookupBucket_map (g : AssetBucket → AssetBucket) :
    ∀ (m : List (String × AssetBucket)) (t : String),
    lookupBucket (m.map (fun kb => (kb.1, g kb.2))) t = (lookupBucket m t).map g := by
  intro m
  induction m with
  | nil => intro t; simp [lookupBucket]
  | cons hd rest ih =>
    intro t
    obtain ⟨k', b⟩ := hd
    by_cases h : k' = t
    · simp [lookupBucket, h]
    · simp [lookupBucket, h, ih]

/-- `bucketEV` is unchanged by a value map that preserves `entry_value`. -/
lemma bucketEV_map (g : AssetBucket → AssetBucket)
    (hg : ∀ b, (g b).entry_value = b.entry_value)
    (m : List (String × AssetBucket)) (t : String) :
    bucketEV (m.map (fun kb => (kb.1, g kb.2))) t = bucketEV m t := by
  unfold bucketEV
  rw [lookupBucket_map]
  cases hb : lookupBucket m t
  · simp
  · simp [hg]

/-- The loop's `valid_positions` list is exactly the data-branch
positions, in input order. -/
lemma calc_valid_positions (l : List EnrichedPosition) :
    (l.foldl pnlStep LoopState.init).valid_positions = l.filter pyValid := by
  have h := (pnlLoop_spec l LoopState.init).2.2.2.2.2.1
  simpa [LoopState.init] using h

/-- C1 (amended): the grand totals `total_entry_value`,
`total_current_value` and `total_unrealized_pnl` all sum over only the
positions reaching the data branch (successful fetch), while the
per-asset-type bucket's `entry_value` accumulates unconditionally over
every position of that asset type. -/
theorem portfolio_totals (l : List EnrichedPosition) :
    (calculate_portfolio_pnl l).total_entry_value
        = sumBy EnrichedPosition.entry_value (l.filter pyValid) ∧
    (calculate_portfolio_pnl l).total_current_value
        = sumBy cvD (l.filter pyValid) ∧
    (calculate_portfolio_pnl l).total_unrealized_pnl
        = sumBy pnlD (l.filter pyValid) ∧
    ∀ t, bucketEV (calculate_portfolio_pnl l).by_asset_type t
        = sumBy EnrichedPosition.entry_value
            (l.filter (fun e => e.asset_type == t)) := by
  obtain ⟨h1, h2, h3, _, _, _, h7⟩ := pnlLoop_spec l LoopState.init
  refine ⟨?_, ?_, ?_, ?_⟩
  · simpa [LoopState.init] using h1
  · simpa [LoopState.init] using h2
  · simpa [LoopState.init] using h3
  · intro t
    have hmap : bucketEV (calculate_portfolio_pnl l).by_asset_type t
        = bucketEV (l.foldl pnlStep LoopState.init).by_asset_type t :=
      bucketEV_map
        (fun b => { b with unrealized_pnl_percent :=
            if b.entry_value > 0 then b.unrealized_pnl / b.entry_value * 100 else 0 })
        (fun b => rfl)
        (l.foldl pnlStep LoopState.init).by_asset_type t
    rw [hmap]
    simpa [LoopState.init, bucketEV, lookupBucket, AssetBucket.init] using h7 t

/-- The stored position used by the C1 counterexample. -/
def positionAAPL : Position :=
  { symbol := "AAPL", asset_type := "stock", entry_date := "2024-01-15"
    entry_price := 180, quantity := 50 }

/-- An enriched position whose price fetch failed: `entry_value` is
9000 but the data branch is skipped. -/
def errEnrichedAAPL : EnrichedPosition :=
  get_position_with_live_price positionAAPL (.error "network error")

/-- C1 counterexample: for a portfolio consisting of one position whose
fetch failed, `total_entry_value` is 0, not the 9000 sum of `entry_value`
over all positions — the code accumulates the grand total only inside the
successful-fetch branch (positions.py line 258). -/
theorem portfolio_entry_value_not_unconditional :
    (calculate_portfolio_pnl [errEnrichedAAPL]).total_entry_value ≠
      sumBy EnrichedPosition.entry_value [errEnrichedAAPL] := by
  simp [calculate_portfolio_pnl, pnlStep, LoopState.init, sumBy,
    errEnrichedAAPL, positionAAPL, get_position_with_live_price, priceErrorTruthy]

/-- C4: when at least one enriched position reaches the data branch, the
best performer is a valid position whose `unrealized_pnl_percent` is
greater than or equal to every valid position's, and the worst performer
one whose percentage is less than or equal to every valid position's; on
ties the first such position in input order wins (expressed with `find?`:
each is the first valid position attaining the extremum).  With no valid
position, both are absent. -/
theorem best_worst_performer_spec (l : List EnrichedPosition) :
    (l.filter pyValid = [] →
      (calculate_portfolio_pnl l).best_performer = none ∧
      (calculate_portfolio_pnl l).worst_performer = none) ∧
    (l.filter pyValid ≠ [] →
      ∃ b w, (calculate_portfolio_pnl l).best_performer = some b ∧
        (calculate_portfolio_pnl l).worst_performer = some w ∧
        b ∈ l.filter pyValid ∧ w ∈ l.filter pyValid ∧
        (∀ e ∈ l.filter pyValid, pnlPctD e ≤ pnlPctD b) ∧
        (∀ e ∈ l.filter pyValid, pnlPctD w ≤ pnlPctD e) ∧
        (l.filter pyValid).find? (fun x => decide (pnlPctD b ≤ pnlPctD x)) = some b ∧
        (l.filter pyValid).find? (fun x => decide (pnlPctD x ≤ pnlPctD w)) = some w) := by
  have hbest : (calculate_portfolio_pnl l).best_performer
      = pyMaxBy pnlPctD (l.filter pyValid) := by
    show pyMaxBy pnlPctD (l.foldl pnlStep LoopState.init).valid_positions = _
    rw [calc_valid_positions]
  have hworst : (calculate_portfolio_pnl l).worst_performer
      = pyMinBy pnlPctD (l.filter pyValid) := by
    show pyMinBy pnlPctD (l.foldl pnlStep LoopState.init).valid_positions = _
    rw [calc_valid_positions]
  constructor
  · intro hnil
    rw [hbest, hworst, hnil]
    exact ⟨rfl, rfl⟩
  · intro hne
    match hval : l.filter pyValid with
    | [] => exact absurd hval hne
    | x :: xs =>
      rw [hval] at hbest hworst
      obtain ⟨hb1, hb2, hb3⟩ := pyMaxBy_spec pnlPctD (x :: xs)
        (xs.foldl (fun best y => if pnlPctD y > pnlPctD best then y else best) x)
        (by simp [pyMaxBy])
      obtain ⟨hw1, hw2, hw3⟩ := pyMinBy_spec pnlPctD (x :: xs)
        (xs.foldl (fun best y => if pnlPctD y < pnlPctD best then y else best) x)
        (by simp [pyMinBy])
      exact ⟨_, _, by rw [hbest]; rfl, by rw [hworst]; rfl,
        hb1, hw1, hb2, hw2, hb3, hw3⟩

/-- C5: division-by-zero guards.  A successfully fetched position whose
`entry_value` is 0 gets `unrealized_pnl_percent = 0`; the overall
percentage is `pnl / entry_value * 100` only when `total_entry_value` is
strictly positive and 0 otherwise; every asset-type bucket follows the
same rule. -/
theorem pnl_percent_zero_guard (position : Position) (p : ℚ)
    (l : List EnrichedPosition) (t : String) :
    (position.entry_price * position.quantity = 0 →
      (get_position_with_live_price position (.ok p)).unrealized_pnl_percent = some 0) ∧
    ((calculate_portfolio_pnl l).total_entry_value > 0 →
      (calculate_portfolio_pnl l).total_unrealized_pnl_percent =
        (calculate_portfolio_pnl l).total_unrealized_pnl /
          (calculate_portfolio_pnl l).total_entry_value * 100) ∧
    (¬ (calculate_portfolio_pnl l).total_entry_value > 0 →
      (calculate_portfolio_pnl l).total_unrealized_pnl_percent = 0) ∧
    (∀ b, lookupBucket (calculate_portfolio_pnl l).by_asset_type t = some b →
      b.unrealized_pnl_percent =
        if b.entry_value > 0 then b.unrealized_pnl / b.entry_value * 100 else 0) := by
  refine ⟨?_, ?_, ?_, ?_⟩
  · intro h
    simp [get_position_with_live_price, h]
  · intro h
    have h' : (l.foldl pnlStep LoopState.init).total_entry_value > 0 := h
    show (if (l.foldl pnlStep LoopState.init).total_entry_value > 0 then
        (l.foldl pnlStep LoopState.init).total_unrealized_pnl /
          (l.foldl pnlStep LoopState.init).total_entry_value * 100 else 0) = _
    rw [if_pos h']
    rfl
  · intro h
    have h' : ¬ (l.foldl pnlStep LoopState.init).total_entry_value > 0 := h
    show (if (l.foldl pnlStep LoopState.init).total_entry_value > 0 then
        (l.foldl pnlStep LoopState.init).total_unrealized_pnl /
          (l.foldl pnlStep LoopState.init).total_entry_value * 100 else 0) = _
    rw [if_neg h']
  · intro b hb
    have hb' : ((lookupBucket (l.foldl pnlStep LoopState.init).by_asset_type t).map
        (fun b0 => { b0 with unrealized_pnl_percent :=
            if b0.entry_value > 0 then b0.unrealized_pnl / b0.entry_value * 100 else 0 }))
        = some b := by
      rw [← lookupBucket_map]
      exact hb
    cases hb0 : lookupBucket (l.foldl pnlStep LoopState.init).by_asset_type t with
    | none => rw [hb0] at hb'; simp at hb'
    | some b0 =>
      rw [hb0] at hb'
      simp only [Option.map_some'] at hb'
      have hbb := Option.some.inj hb'
      rw [← hbb]

/-- Counting helper: when every enriched position either has a truthy
error or a present `current_value`, every loop iteration bumps exactly
one of the two counters. -/
lemma filter_countP_partition :
    ∀ l : List EnrichedPosition,
    (∀ e ∈ l, priceErrorTruthy e = true ∨ e.current_value.isSome = true) →
    (l.filter pyValid).length + l.countP priceErrorTruthy = l.length := by
  intro l
  induction l with
  | nil => intro _; simp
  | cons p l ih =>
    intro h
    have hp := h p (List.mem_cons_self p l)
    have hl : ∀ e ∈ l, priceErrorTruthy e = true ∨ e.current_value.isSome = true :=
      fun e he => h e (List.mem_cons_of_mem p he)
    have hrec := ih hl
    by_cases hE : priceErrorTruthy p
    · have hvalid : pyValid p = false := by simp [pyValid, hE]
      have h1 : (List.filter pyValid (p :: l)).length = (List.filter pyValid l).length := by
        simp [List.filter_cons, hvalid]
      have h2 : List.countP priceErrorTruthy (p :: l)
          = List.countP priceErrorTruthy l + 1 := by
        simp [List.countP_cons, hE]
      rw [h1, h2, List.length_cons]
      omega
    · have hC : p.current_value.isSome = true := hp.resolve_left hE
      have hvalid : pyValid p = true := by simp [pyValid, hE, hC]
      have h1 : (List.filter pyValid (p :: l)).length
          = (List.filter pyValid l).length + 1 := by
        simp [List.filter_cons, hvalid]
      have h2 : List.countP priceErrorTruthy (p :: l)
          = List.countP priceErrorTruthy l := by
        simp [List.countP_cons, hE]
      rw [h1, h2, List.length_cons]
      omega

/-- C10: if every enriched position carries either a non-empty fetch
error or a present `current_value`, the summary satisfies
`positions_with_data + positions_with_errors = total_positions`. -/
theorem position_counts_partition (l : List EnrichedPosition)
    (h : ∀ e ∈ l, priceErrorTruthy e = true ∨ e.current_value.isSome = true) :
    (calculate_portfolio_pnl l).positions_with_data +
      (calculate_portfolio_pnl l).positions_with_errors =
      (calculate_portfolio_pnl l).total_positions := by
  obtain ⟨_, _, _, h4, h5, _, _⟩ := pnlLoop_spec l LoopState.init
  show (l.foldl pnlStep LoopState.init).positions_with_data +
      (l.foldl pnlStep LoopState.init).positions_with_errors = l.length
  rw [h4, h5]
  have hpart := filter_countP_partition l h
  have hz1 : LoopState.init.positions_with_data = 0 := rfl
  have hz2 : LoopState.init.positions_with_errors = 0 := rfl
  rw [hz1, hz2]
  omega

/-- The fields of a yfinance quote consulted by `get_stock_price`
(datafetch.py lines 44-79): the three `info` dictionary fields (each
`none` when missing or `None`), the `fast_info` last price (`none` when
the attribute is missing or raises), and the last close of the 1-day
intraday history (`none` when the history is empty or raises). -/
structure StockQuote where
  currentPrice : Option ℚ
  regularMarketPrice : Option ℚ
  previousClose : Option ℚ
  fast_last_price : Option ℚ
  hist_last_close : Option ℚ
deriving Repr, DecidableEq

/-- One step of the `for field in price_fields` loop (datafetch.py lines
52-57): a present field is returned only when strictly positive,
otherwise the loop falls through to the next candidate. -/
def tryPositiveField (o : Option ℚ) : Option ℚ :=
  match o with
  | some price => if price > 0 then some price else none
  | none => none

/-- The history fallback and final failure of `get_stock_price`
(datafetch.py lines 71-81): the raised `DataFetchError` is caught by the
function's own `except Exception` handler and re-raised with a wrapped
message (line 85-88). -/
def stockHistoryFallback (s : String) (q : StockQuote) : Except String ℚ :=
  match q.hist_last_close with
  | some price =>
    if price > 0 then .ok price
    else .error ("Failed to fetch price for " ++ s ++ ": No valid price data found for " ++ s)
  | none =>
    .error ("Failed to fetch price for " ++ s ++ ": No valid price data found for " ++ s)

/-- `get_stock_price` (datafetch.py lines 22-88) for the equity/ETF path:
try `currentPrice`, `regularMarketPrice`, `previousClose` in order, then
the `fast_info` last price (guarded by Python truthiness, so a zero fast
price is skipped before the positivity check), then the history close.
The network interaction is abstracted as the quote record `q`. -/
def get_stock_price (symbol : String) (q : StockQuote) : Except String ℚ :=
  if symbol = "" then .error "Symbol must be a non-empty string"
  else
    let s := symbol.toUpper.trim
    match tryPositiveField q.currentPrice with
    | some price => .ok price
    | none =>
      match tryPositiveField q.regularMarketPrice with
      | some price => .ok price
      | none =>
        match tryPositiveField q.previousClose with
        | some price => .ok price
        | none =>
          match q.fast_last_price with
          | some lp =>
            if lp ≠ 0 then
              if lp > 0 then .ok lp else stockHistoryFallback s q
            else stockHistoryFallback s q
          | none => stockHistoryFallback s q

/-- The candidate prices of a quote in the priority order fixed by the
source, with absent fields skipped. -/
def stockPriceCandidates (q : StockQuote) : List ℚ :=
  [q.currentPrice, q.regularMarketPrice, q.previousClose,
    q.fast_last_price, q.hist_last_close].filterMap id

/-- Restatement of the spec's words for the equity path: return the first
strictly positive candidate in priority order, or fail. -/
def stockPriceSpec (symbol : String) (q : StockQuote) : Except String ℚ :=
  match (stockPriceCandidates q).find? (fun v => decide (0 < v)) with
  | some v => .ok v
  | none =>
    .error ("Failed to fetch price for " ++ symbol.toUpper.trim ++
      ": No valid price data found for " ++ symbol.toUpper.trim)

/-- C6: for a non-empty symbol, `get_stock_price` returns exactly the
first strictly positive value among `currentPrice`,
`regularMarketPrice`, `previousClose`, the fast-quote last price and the
intraday history close, in that order, and fails with a fetch error when
none is positive. -/
theorem stock_price_first_positive (symbol : String) (q : StockQuote)
    (h : symbol ≠ "") :
    get_stock_price symbol q = stockPriceSpec symbol q := by
  obtain ⟨c1, c2, c3, c4, c5⟩ := q
  unfold get_stock_price stockPriceSpec stockPriceCandidates
  rw [if_neg h]
  cases c1 with
  | some v1 =>
    by_cases h1 : v1 > 0
    · simp [tryPositiveField, h1]
    · have h1' : ¬ (0 < v1) := h1
      simp [tryPositiveField, h1, h1']
      cases c2 with
      | some v2 =>
        by_cases h2 : v2 > 0
        · simp [tryPositiveField, h2]
        · have h2' : ¬ (0 < v2) := h2
          simp [tryPositiveField, h2, h2']
          cases c3 with
          | some v3 =>
            by_cases h3 : v3 > 0
            · simp [tryPositiveField, h3]
            · have h3' : ¬ (0 < v3) := h3
              simp [tryPositiveField, h3, h3']
              cases c4 with
              | some v4 =>
                by_cases h4 : v4 > 0
                · have h4z : v4 ≠ 0 := ne_of_gt h4
                  simp [h4, h4z]
                · have h4' : ¬ (0 < v4) := h4
                  by_cases h4z : v4 = 0
                  · simp [h4z, stockHistoryFallback]
                    cases c5 with
                    | some v5 =>
                      by_cases h5 : v5 > 0
                      · simp [h5]
                      · simp [h5, fun hh : 0 < v5 => h5 hh]
                    | none => simp
                  · simp [h4, h4z, h4', stockHistoryFallback]
                    cases c5 with
                    | some v5 =>
                      by_cases h5 : v5 > 0
                      · simp [h5]
                      · simp [h5, fun hh : 0 < v5 => h5 hh]
                    | none => simp
              | none =>
                simp [stockHistoryFallback]
                cases c5 with
                | some v5 =>
                  by_cases h5 : v5 > 0
                  · simp [h5]
                  · simp [h5, fun hh : 0 < v5 => h5 hh]
                | none => simp
          | none =>
            simp [tryPositiveField]
            cases c4 with
            | some v4 =>
              by_cases h4 : v4 > 0
              · have h4z : v4 ≠ 0 := ne_of_gt h4
                simp [h4, h4z]
              · have h4' : ¬ (0 < v4) := h4
                by_cases h4z : v4 = 0
                · simp [h4z, stockHistoryFallback]
                  cases c5 with
                  | some v5 =>
                    by_cases h5 : v5 > 0
                    · simp [h5]
                    · simp [h5, fun hh : 0 < v5 => h5 hh]
                  | none => simp
                · simp [h4, h4z, h4', stockHistoryFallback]
                  cases c5 with
                  | some v5 =>
                    by_cases h5 : v5 > 0
                    · simp [h5]
                    · simp [h5, fun hh : 0 < v5 => h5 hh]
                  | none => simp
            | none =>
              simp [stockHistoryFallback]
              cases c5 with
              | some v5 =>
                by_cases h5 : v5 > 0
                · simp [h5]
                · simp [h5, fun hh : 0 < v5 => h5 hh]
              | none => simp
      | none =>
        simp [tryPositiveField]
        cases c3 with
        | some v3 =>
          by_cases h3 : v3 > 0
          · simp [tryPositiveField, h3]
          · have h3' : ¬ (0 < v3) := h3
            simp [tryPositiveField, h3, h3']
            cases c4 with
            | some v4 =>
              by_cases h4 : v4 > 0
              · have h4z : v4 ≠ 0 := ne_of_gt h4
                simp [h4, h4z]
              · have h4' : ¬ (0 < v4) := h4
                by_cases h4z : v4 = 0
                · simp [h4z, stockHistoryFallback]
                  cases c5 with
                  | some v5 =>
                    by_cases h5 : v5 > 0
                    · simp [h5]
                    · simp [h5, fun hh : 0 < v5 => h5 hh]
                  | none => simp
                · simp [h4, h4z, h4', stockHistoryFallback]
                  cases c5 with
                  | some v5 =>
                    by_cases h5 : v5 > 0
                    · simp [h5]
                    · simp [h5, fun hh : 0 < v5 => h5 hh]
                  | none => simp
            | none =>
              simp [stockHistoryFallback]
              cases c5 with
              | some v5 =>
                by_cases h5 : v5 > 0
                · simp [h5]
                · simp [h5, fun hh : 0 < v5 => h5 hh]
              | none => simp
        | none =>
          simp [tryPositiveField]
          cases c4 with
          | some v4 =>
            by_cases h4 : v4 > 0
            · have h4z : v4 ≠ 0 := ne_of_gt h4
              simp [h4, h4z]
            · have h4' : ¬ (0 < v4) := h4
              by_cases h4z : v4 = 0
              · simp [h4z, stockHistoryFallback]
                cases c5 with
                | some v5 =>
                  by_cases h5 : v5 > 0
                  · simp [h5]
                  · simp [h5, fun hh : 0 < v5 => h5 hh]
                | none => simp
              · simp [h4, h4z, h4', stockHistoryFallback]
                cases c5 with
                | some v5 =>
                  by_cases h5 : v5 > 0
                  · simp [h5]
                  · simp [h5, fun hh : 0 < v5 => h5 hh]
                | none => simp
          | none =>
            simp [stockHistoryFallback]
            cases c5 with
            | some v5 =>
              by_cases h5 : v5 > 0
              · simp [h5]
              · simp [h5, fun hh : 0 < v5 => h5 hh]
            | none => simp
  | none =>
    simp [tryPositiveField]
    cases c2 with
    | some v2 =>
      by_cases h2 : v2 > 0
      · simp [tryPositiveField, h2]
      · have h2' : ¬ (0 < v2) := h2
        simp [tryPositiveField, h2, h2']
        cases c3 with
        | some v3 =>
          by_cases h3 : v3 > 0
          · simp [tryPositiveField, h3]
          · have h3' : ¬ (0 < v3) := h3
            simp [tryPositiveField, h3, h3']
            cases c4 with
            | some v4 =>
              by_cases h4 : v4 > 0
              · have h4z : v4 ≠ 0 := ne_of_gt h4
                simp [h4, h4z]
              · have h4' : ¬ (0 < v4) := h4
                by_cases h4z : v4 = 0
                · simp [h4z, stockHistoryFallback]
                  cases c5 with
                  | some v5 =>
                    by_cases h5 : v5 > 0
                    · simp [h5]
                    · simp [h5, fun hh : 0 < v5 => h5 hh]
                  | none => simp
                · simp [h4, h4z, h4', stockHistoryFallback]
                  cases c5 with
                  | some v5 =>
                    by_cases h5 : v5 > 0
                    · simp [h5]
                    · simp [h5, fun hh : 0 < v5 => h5 hh]
                  | none => simp
            | none =>
              simp [stockHistoryFallback]
              cases c5 with
              | some v5 =>
                by_cases h5 : v5 > 0
                · simp [h5]
                · simp [h5, fun hh : 0 < v5 => h5 hh]
              | none => simp
        | none =>
          simp [tryPositiveField]
          cases c4 with
          | some v4 =>
            by_cases h4 : v4 > 0
            · have h4z : v4 ≠ 0 := ne_of_gt h4
              simp [h4, h4z]
            · have h4' : ¬ (0 < v4) := h4
              by_cases h4z : v4 = 0
              · simp [h4z, stockHistoryFallback]
                cases c5 with
                | some v5 =>
                  by_cases h5 : v5 > 0
                  · simp [h5]
                  · simp [h5, fun hh : 0 < v5 => h5 hh]
                | none => simp
              · simp [h4, h4z, h4', stockHistoryFallback]
                cases c5 with
                | some v5 =>
                  by_cases h5 : v5 > 0
                  · simp [h5]
                  · simp [h5, fun hh : 0 < v5 => h5 hh]
                | none => simp
          | none =>
            simp [stockHistoryFallback]
            cases c5 with
            | some v5 =>
              by_cases h5 : v5 > 0
              · simp [h5]
              · simp [h5, fun hh : 0 < v5 => h5 hh]
            | none => simp
    | none =>
      simp [tryPositiveField]
      cases c3 with
      | some v3 =>
        by_cases h3 : v3 > 0
        · simp [tryPositiveField, h3]
        · have h3' : ¬ (0 < v3) := h3
          simp [tryPositiveField, h3, h3']
          cases c4 with
          | some v4 =>
            by_cases h4 : v4 > 0
            · have h4z : v4 ≠ 0 := ne_of_gt h4
              simp [h4, h4z]
            · have h4' : ¬ (0 < v4) := h4
              by_cases h4z : v4 = 0
              · simp [h4z, stockHistoryFallback]
                cases c5 with
                | some v5 =>
                  by_cases h5 : v5 > 0
                  · simp [h5]
                  · simp [h5, fun hh : 0 < v5 => h5 hh]
                | none => simp
              · simp [h4, h4z, h4', stockHistoryFallback]
                cases c5 with
                | some v5 =>
                  by_cases h5 : v5 > 0
                  · simp [h5]
                  · simp [h5, fun hh : 0 < v5 => h5 hh]
                | none => simp
          | none =>
            simp [stockHistoryFallback]
            cases c5 with
            | some v5 =>
              by_cases h5 : v5 > 0
              · simp [h5]
              · simp [h5, fun hh : 0 < v5 => h5 hh]
            | none => simp
      | none =>
        simp [tryPositiveField]
        cases c4 with
        | some v4 =>
          by_cases h4 : v4 > 0
          · have h4z : v4 ≠ 0 := ne_of_gt h4
            simp [h4, h4z]
          · have h4' : ¬ (0 < v4) := h4
            by_cases h4z : v4 = 0
            · simp [h4z, stockHistoryFallback]
              cases c5 with
              | some v5 =>
                by_cases h5 : v5 > 0
                · simp [h5]
                · simp [h5, fun hh : 0 < v5 => h5 hh]
              | none => simp
            · simp [h4, h4z, h4', stockHistoryFallback]
              cases c5 with
              | some v5 =>
                by_cases h5 : v5 > 0
                · simp [h5]
                · simp [h5, fun hh : 0 < v5 => h5 hh]
              | none => simp
        | none =>
          simp [stockHistoryFallback]
          cases c5 with
          | some v5 =>
            by_cases h5 : v5 > 0
            · simp [h5]
            · simp [h5, fun hh : 0 < v5 => h5 hh]
          | none => simp

/-- Python `str.upper()` on a symbol (ASCII market tickers), modelled
characterwise. -/
def pyUpper (s : List Char) : List Char := s.map Char.toUpper

/-- Python `str.strip()`: drop whitespace from both ends. -/
def pyStrip (s : List Char) : List Char :=
  ((s.dropWhile Char.isWhitespace).reverse.dropWhile Char.isWhitespace).reverse

/-- The character substitution of `symbol.replace('-', '/')`. -/
def dashToSlash (c : Char) : Char := if c = '-' then '/' else c

/-- The pair normalisation of `get_crypto_price` (datafetch.py lines
111-120): uppercase and strip, replace every `-` with `/` when a dash is
present, then append `/USDT` when no `/` separator remains. -/
def normalize_crypto_pair (symbol : List Char) : List Char :=
  let s := pyStrip (pyUpper symbol)
  let s := if s.contains '-' then s.map dashToSlash else s
  if s.contains '/' then s else s ++ ['/', 'U', 'S', 'D', 'T']

/-- Restatement of the spec's words for pair normalisation: any `-`
separator is replaced by `/` (unconditionally), and a symbol with no
separator gets `/USDT` appended. -/
def cryptoPairSpec (symbol : List Char) : List Char :=
  let s := (pyStrip (pyUpper symbol)).map dashToSlash
  if s.contains '/' then s else s ++ ['/', 'U', 'S', 'D', 'T']

/-- Replacing dashes in a dash-free string is the identity. -/
lemma map_dashToSlash_of_not_contains :
    ∀ s : List Char, s.contains '-' = false → s.map dashToSlash = s := by
  intro s
  induction s with
  | nil => intro _; rfl
  | cons c cs ih =>
    intro h
    rw [List.contains_cons] at h
    simp only [Bool.or_eq_false_iff] at h
    obtain ⟨h1, h2⟩ := h
    have hc : ¬ c = '-' := by
      intro hh
      rw [hh] at h1
      simp at h1
    simp [dashToSlash, hc, ih h2]

/-- Python `exchange.lower().strip()` (datafetch.py line 112), modelled
characterwise so that it evaluates by kernel reduction. -/
def pyLowerStrip (s : String) : String := ⟨pyStrip (s.data.map Char.toLower)⟩

/-- The outcome of `exchange_obj.fetch_ticker(symbol)['last']` as seen by
`get_crypto_price` (datafetch.py lines 153-160): the ticker may be empty
or lack a usable `last` field, the `float()` conversion may raise, the
network call itself may raise, or a numeric last price is returned. -/
inductive TickerLast where
  | missing
  | nonNumeric
  | raised (msg : String)
  | value (v : ℚ)
deriving Repr, DecidableEq

/-- `get_crypto_price` (datafetch.py lines 91-170): validate the inputs,
normalise the pair, select the exchange adapter by (lowercased, stripped)
name — `binance`, `coinbase` and `kraken` are built in, any other name is
accepted exactly when the ccxt library has an attribute of that name —
then fetch the ticker for the normalised pair and fail unless its `last`
field converts to a strictly positive number.  `ccxtHas` abstracts
`hasattr(ccxt, exchange)` and `fetchLast` abstracts the ticker request;
every raised error is surfaced as (a wrapped) `DataFetchError`. -/
def get_crypto_price (symbol : List Char) (exchange : String)
    (ccxtHas : String → Bool)
    (fetchLast : String → List Char → TickerLast) : Except String ℚ :=
  if symbol = [] then .error "Symbol must be a non-empty string"
  else if exchange = "" then .error "Exchange must be a non-empty string"
  else
    let s := normalize_crypto_pair symbol
    let ex := pyLowerStrip exchange
    if ex = "binance" ∨ ex = "coinbase" ∨ ex = "kraken" ∨ ccxtHas ex then
      match fetchLast ex s with
      | .missing =>
        .error ("Failed to fetch crypto price: no ticker data available on " ++ ex)
      | .nonNumeric =>
        .error ("Failed to fetch crypto price: ticker last value is not numeric on " ++ ex)
      | .raised msg =>
        .error ("Failed to fetch crypto price: " ++ msg)
      | .value v =>
        if v ≤ 0 then .error "Invalid price returned"
        else .ok v
    else .error ("Failed to fetch crypto price: Unsupported exchange: " ++ ex)

/-- The Python signature defaults `exchange` to `"binance"`
(datafetch.py line 91). -/
def get_crypto_price_default (symbol : List Char) (ccxtHas : String → Bool)
    (fetchLast : String → List Char → TickerLast) : Except String ℚ :=
  get_crypto_price symbol "binance" ccxtHas fetchLast

/-- C7: crypto price fetching.  (i) The pair queried is the normalised
one, and normalisation matches the spec's description: every `-` becomes
`/` and a separator-free symbol gains `/USDT` (e.g. `BTC ↦ BTC/USDT`).
(ii) The one-argument form uses the `binance` exchange.  (iii) For a
supported exchange name the call fails whenever the ticker's last-trade
field is absent, non-numeric (or the fetch raised), or not strictly
positive, and returns the last price exactly when it is positive. -/
theorem crypto_price_spec (symbol : List Char) (exchange : String)
    (ccxtHas : String → Bool) (fetchLast : String → List Char → TickerLast)
    (hs : symbol ≠ []) (he : exchange ≠ "")
    (hex : pyLowerStrip exchange = "binance" ∨ pyLowerStrip exchange = "coinbase" ∨
      pyLowerStrip exchange = "kraken" ∨ ccxtHas (pyLowerStrip exchange) = true) :
    normalize_crypto_pair symbol = cryptoPairSpec symbol ∧
    normalize_crypto_pair ['B', 'T', 'C'] = ['B', 'T', 'C', '/', 'U', 'S', 'D', 'T'] ∧
    get_crypto_price_default symbol ccxtHas fetchLast =
      get_crypto_price symbol "binance" ccxtHas fetchLast ∧
    (fetchLast (pyLowerStrip exchange) (normalize_crypto_pair symbol) = .missing →
      ∃ m, get_crypto_price symbol exchange ccxtHas fetchLast = .error m) ∧
    (fetchLast (pyLowerStrip exchange) (normalize_crypto_pair symbol) = .nonNumeric →
      ∃ m, get_crypto_price symbol exchange ccxtHas fetchLast = .error m) ∧
    (∀ v, fetchLast (pyLowerStrip exchange) (normalize_crypto_pair symbol) = .value v →
      v ≤ 0 → ∃ m, get_crypto_price symbol exchange ccxtHas fetchLast = .error m) ∧
    (∀ v, fetchLast (pyLowerStrip exchange) (normalize_crypto_pair symbol) = .value v →
      0 < v → get_crypto_price symbol exchange ccxtHas fetchLast = .ok v) := by
  have hnorm : normalize_crypto_pair symbol = cryptoPairSpec symbol := by
    simp only [normalize_crypto_pair, cryptoPairSpec]
    cases hd : (pyStrip (pyUpper symbol)).contains '-'
    · rw [map_dashToSlash_of_not_contains _ hd]
      simp only [hd, Bool.false_eq_true, if_false]
    · simp only [hd, if_true]
  have hred : get_crypto_price symbol exchange ccxtHas fetchLast =
      (match fetchLast (pyLowerStrip exchange) (normalize_crypto_pair symbol) with
      | .missing =>
        .error ("Failed to fetch crypto price: no ticker data available on "
          ++ pyLowerStrip exchange)
      | .nonNumeric =>
        .error ("Failed to fetch crypto price: ticker last value is not numeric on "
          ++ pyLowerStrip exchange)
      | .raised msg => .error ("Failed to fetch crypto price: " ++ msg)
      | .value v => if v ≤ 0 then .error "Invalid price returned" else .ok v) := by
    simp only [get_crypto_price]
    rw [if_neg hs, if_neg he, if_pos (by simpa using hex)]
  refine ⟨hnorm, by rfl, by rfl, ?_, ?_, ?_, ?_⟩
  · intro hmiss
    refine ⟨"Failed to fetch crypto price: no ticker data available on "
      ++ pyLowerStrip exchange, ?_⟩
    rw [hred, hmiss]
  · intro hnn
    refine ⟨"Failed to fetch crypto price: ticker last value is not numeric on "
      ++ pyLowerStrip exchange, ?_⟩
    rw [hred, hnn]
  · intro v hv hle
    refine ⟨"Invalid price returned", ?_⟩
    rw [hred, hv]
    show (if v ≤ 0 then Except.error "Invalid price returned" else Except.ok v) = _
    rw [if_pos hle]
  · intro v hv hpos
    rw [hred, hv]
    show (if v ≤ 0 then Except.error "Invalid price returned" else Except.ok v) = _
    rw [if_neg (not_le.mpr hpos)]

/-- A row of the `expenses` table (db.py lines 68-76). -/
structure ExpenseRow where
  id : Nat
  date : String
  category : String
  amount : ℚ
  note : String
deriving Repr, DecidableEq

/-- `AlphaDatabase.get_expense` (db.py lines 213-227): the row with the
given id, if any. -/
def db_get_expense (rows : List ExpenseRow) (expense_id : Nat) : Option ExpenseRow :=
  rows.find? (fun r => r.id == expense_id)

/-- `AlphaDatabase.update_expense` (db.py lines 145-196): build a dynamic
UPDATE from the non-null fields; with no fields return `false` without
touching the store; otherwise overwrite the supplied fields of every row
matching the id and report whether any row matched (`rowcount > 0`). -/
def db_update_expense (rows : List ExpenseRow) (expense_id : Nat)
    (date category : Option String) (amount : Option ℚ) (note : Option String) :
    List ExpenseRow × Bool :=
  if date = none ∧ category = none ∧ amount = none ∧ note = none then
    (rows, false)
  else
    (rows.map (fun r =>
      if r.id = expense_id then
        { r with date := date.getD r.date, category := category.getD r.category
                 amount := amount.getD r.amount, note := note.getD r.note }
      else r),
     rows.any (fun r => r.id == expense_id))

/-- `PersonalFinance._validate_date` (finance.py lines 455-471); the
`datetime.strptime` format check is the oracle `dateOk`.  Returns the
error message raised, if any. -/
def pf_validate_date (dateOk : String → Bool) (date : String) : Option String :=
  if date = "" then some "Date is required and must be a string"
  else if dateOk date then none
  else some "Date must be in YYYY-MM-DD format"

/-- `PersonalFinance._validate_category` (finance.py lines 473-484). -/
def pf_validate_category (category : String) : Option String :=
  if category = "" ∨ category.trim = "" then
    some "Category is required and cannot be empty"
  else none

/-- `PersonalFinance._validate_amount` (finance.py lines 499-510). -/
def pf_validate_amount (amount : ℚ) : Option String :=
  if amount ≤ 0 then some "Amount must be a positive number" else none

/-- `PersonalFinance.update_expense` (finance.py lines 74-110): validate
each supplied field (in source order: date, category, amount), then
require the row to exist, then delegate to the database update.  The
returned pair is the store after the call and the outcome; on any raised
`PersonalFinanceError` the store is unchanged. -/
def pf_update_expense (dateOk : String → Bool) (rows : List ExpenseRow)
    (expense_id : Nat) (date category : Option String) (amount : Option ℚ)
    (note : Option String) : List ExpenseRow × Except String Bool :=
  match date.bind (pf_validate_date dateOk) with
  | some m => (rows, .error m)
  | none =>
  match category.bind pf_validate_category with
  | some m => (rows, .error m)
  | none =>
  match amount.bind pf_validate_amount with
  | some m => (rows, .error m)
  | none =>
  match db_get_expense rows expense_id with
  | none => (rows, .error ("Expense with ID " ++ toString expense_id ++ " not found"))
  | some _ =>
    let r := db_update_expense rows expense_id date category amount note
    (r.1, .ok r.2)

/-- A row of the `positions` table (db.py lines 104-113). -/
structure PositionRow where
  id : Nat
  symbol : String
  asset_type : String
  entry_date : String
  entry_price : ℚ
  quantity : ℚ
deriving Repr, DecidableEq

/-- `AlphaDatabase.get_position` (db.py lines 690-704). -/
def db_get_position (rows : List PositionRow) (position_id : Nat) : Option PositionRow :=
  rows.find? (fun r => r.id == position_id)

/-- The valid asset types of `OpenPositions` and `TradingJournal`
(positions.py line 43, trading.py line 41). -/
def valid_asset_types : List String :=
  ["stock", "crypto", "etf", "forex", "commodity", "bond", "option", "future"]

/-- `AlphaDatabase.update_position` (db.py lines 618-672): same dynamic
UPDATE pattern as `db_update_expense`. -/
def db_update_position (rows : List PositionRow) (position_id : Nat)
    (symbol asset_type entry_date : Option String)
    (entry_price quantity : Option ℚ) : List PositionRow × Bool :=
  if symbol = none ∧ asset_type = none ∧ entry_date = none ∧
      entry_price = none ∧ quantity = none then
    (rows, false)
  else
    (rows.map (fun r =>
      if r.id = position_id then
        { r with symbol := symbol.getD r.symbol
                 asset_type := asset_type.getD r.asset_type
                 entry_date := entry_date.getD r.entry_date
                 entry_price := entry_price.getD r.entry_price
                 quantity := quantity.getD r.quantity }
      else r),
     rows.any (fun r => r.id == position_id))

/-- `OpenPositions.update_position` (positions.py lines 411-484): the
existence check comes first (lines 431-434); only then are the supplied
fields validated and normalised and the database update issued. -/
def op_update_position (dateOk : String → Bool) (rows : List PositionRow)
    (position_id : Nat) (symbol asset_type entry_date : Option String)
    (entry_price quantity : Option ℚ) : List PositionRow × Except String Bool :=
  match db_get_position rows position_id with
  | none => (rows, .error ("Position with ID " ++ toString position_id ++ " not found"))
  | some _ =>
  match symbol.bind (fun s =>
      if s = "" ∨ s.trim = "" then some "Symbol cannot be empty" else none) with
  | some m => (rows, .error m)
  | none =>
  match asset_type.bind (fun a =>
      if valid_asset_types.contains a.toLower then none
      else some "Asset type must be one of the valid asset types") with
  | some m => (rows, .error m)
  | none =>
  match entry_price.bind (fun p =>
      if p ≤ 0 then some "Entry price must be greater than 0" else none) with
  | some m => (rows, .error m)
  | none =>
  match quantity.bind (fun qy =>
      if qy ≤ 0 then some "Quantity must be greater than 0" else none) with
  | some m => (rows, .error m)
  | none =>
  match entry_date.bind (fun d =>
      if dateOk d then none else some "Entry date must be in YYYY-MM-DD format") with
  | some m => (rows, .error m)
  | none =>
    let r := db_update_position rows position_id
      (symbol.map (fun s => s.toUpper.trim)) (asset_type.map String.toLower)
      entry_date entry_price quantity
    (r.1, .ok r.2)

/-- C8: updating through the domain services with an id that matches no
stored row fails with a not-found error and returns the store unchanged —
for `PersonalFinance.update_expense` (provided the supplied fields
themselves validate) and unconditionally for
`OpenPositions.update_position`, whose existence check runs first. -/
theorem update_missing_id_not_found (dateOk : String → Bool)
    (rows : List ExpenseRow) (expense_id : Nat)
    (date category : Option String) (amount : Option ℚ) (note : Option String)
    (prows : List PositionRow) (position_id : Nat)
    (psymbol passet pdate : Option String) (pprice pqty : Option ℚ)
    (hmiss : db_get_expense rows expense_id = none)
    (hd : date.bind (pf_validate_date dateOk) = none)
    (hc : category.bind pf_validate_category = none)
    (ha : amount.bind pf_validate_amount = none)
    (hpmiss : db_get_position prows position_id = none) :
    pf_update_expense dateOk rows expense_id date category amount note =
      (rows, .error ("Expense with ID " ++ toString expense_id ++ " not found")) ∧
    op_update_position dateOk prows position_id psymbol passet pdate pprice pqty =
      (prows, .error ("Position with ID " ++ toString position_id ++ " not found")) := by
  constructor
  · unfold pf_update_expense
    rw [hd, hc, ha, hmiss]
  · unfold op_update_position
    rw [hpmiss]

/-- A row of the `trades` table (db.py lines 89-101). -/
structure TradeRow where
  id : Nat
  symbol : String
  asset_type : String
  entry_date : String
  entry_price : ℚ
  quantity : ℚ
  trade_type : String
  notes : String
  tags : String
deriving Repr, DecidableEq

/-- The `trades` table contents together with the next AUTOINCREMENT id. -/
structure TradeStore where
  rows : List TradeRow
  next_id : Nat
deriving Repr, DecidableEq

/-- The valid trade types of `TradingJournal` (trading.py line 42). -/
def valid_trade_types : List String := ["buy", "sell", "short", "cover"]

/-- `TradingJournal._validate_symbol` (trading.py lines 406-420). -/
def tj_validate_symbol (symbol : String) : Option String :=
  if symbol = "" ∨ symbol.trim = "" then
    some "Symbol is required and cannot be empty"
  else if symbol.trim.length > 20 then
    some "Symbol cannot be longer than 20 characters"
  else none

/-- `TradingJournal._validate_asset_type` (trading.py lines 422-438). -/
def tj_validate_asset_type (asset_type : String) : Option String :=
  if asset_type = "" then some "Asset type is required"
  else if valid_asset_types.contains asset_type.toLower then none
  else some "Asset type must be one of the valid asset types"

/-- `TradingJournal._validate_date` (trading.py lines 440-456); the
`datetime.strptime` format check is the oracle `dateOk`. -/
def tj_validate_date (dateOk : String → Bool) (date : String) : Option String :=
  if date = "" then some "Date is required and must be a string"
  else if dateOk date then none
  else some "Date must be in YYYY-MM-DD format"

/-- `TradingJournal._validate_price` (trading.py lines 458-469). -/
def tj_validate_price (price : ℚ) : Option String :=
  if price ≤ 0 then some "Price must be a positive number" else none

/-- `TradingJournal._validate_quantity` (trading.py lines 471-482). -/
def tj_validate_quantity (quantity : ℚ) : Option String :=
  if quantity ≤ 0 then some "Quantity must be a positive number" else none

/-- `TradingJournal._validate_trade_type` (trading.py lines 484-499). -/
def tj_validate_trade_type (trade_type : String) : Option String :=
  if trade_type = "" then some "Trade type is required"
  else if valid_trade_types.contains trade_type.toLower then none
  else some "Trade type must be one of the valid trade types"

/-- `TradingJournal.add_trade` (trading.py lines 47-90): run the six
validators in source order; only if all pass is the row inserted (with
uppercased symbol and lowercased asset and trade types) and its new id
returned.  The returned pair is the store after the call and the
outcome. -/
def tj_add_trade (dateOk : String → Bool) (st : TradeStore)
    (symbol asset_type entry_date : String) (entry_price quantity : ℚ)
    (trade_type notes tags : String) : TradeStore × Except String Nat :=
  match tj_validate_symbol symbol with
  | some m => (st, .error m)
  | none =>
  match tj_validate_asset_type asset_type with
  | some m => (st, .error m)
  | none =>
  match tj_validate_date dateOk entry_date with
  | some m => (st, .error m)
  | none =>
  match tj_validate_price entry_price with
  | some m => (st, .error m)
  | none =>
  match tj_validate_quantity quantity with
  | some m => (st, .error m)
  | none =>
  match tj_validate_trade_type trade_type with
  | some m => (st, .error m)
  | none =>
    let row : TradeRow :=
      { id := st.next_id, symbol := symbol.toUpper,
        asset_type := asset_type.toLower, entry_date := entry_date,
        entry_price := entry_price, quantity := quantity,
        trade_type := trade_type.toLower, notes := notes, tags := tags }
    ({ rows := st.rows ++ [row], next_id := st.next_id + 1 }, .ok st.next_id)

/-- C9: `add_trade` with any invalid input — empty or overlong symbol,
unknown asset type, empty or malformed date, non-positive price or
quantity, or unknown trade type — fails with a validation error and
leaves the store untouched. -/
theorem add_trade_invalid_rejected (dateOk : String → Bool) (st : TradeStore)
    (symbol asset_type entry_date : String) (entry_price quantity : ℚ)
    (trade_type notes tags : String)
    (h : symbol.trim = "" ∨ symbol.trim.length > 20 ∨
      valid_asset_types.contains asset_type.toLower = false ∨
      entry_date = "" ∨ dateOk entry_date = false ∨
      entry_price ≤ 0 ∨ quantity ≤ 0 ∨
      valid_trade_types.contains trade_type.toLower = false) :
    ∃ m, tj_add_trade dateOk st symbol asset_type entry_date entry_price
      quantity trade_type notes tags = (st, .error m) := by
  unfold tj_add_trade
  cases h1 : tj_validate_symbol symbol with
  | some m => exact ⟨m, rfl⟩
  | none =>
  cases h2 : tj_validate_asset_type asset_type with
  | some m => exact ⟨m, rfl⟩
  | none =>
  cases h3 : tj_validate_date dateOk entry_date with
  | some m => exact ⟨m, rfl⟩
  | none =>
  cases h4 : tj_validate_price entry_price with
  | some m => exact ⟨m, rfl⟩
  | none =>
  cases h5 : tj_validate_quantity quantity with
  | some m => exact ⟨m, rfl⟩
  | none =>
  cases h6 : tj_validate_trade_type trade_type with
  | some m => exact ⟨m, rfl⟩
  | none =>
    exfalso
    unfold tj_validate_symbol at h1
    unfold tj_validate_asset_type at h2
    unfold tj_validate_date at h3
    unfold tj_validate_price at h4
    unfold tj_validate_quantity at h5
    unfold tj_validate_trade_type at h6
    rcases h with h | h | h | h | h | h | h | h
    · rw [if_pos (Or.inr h)] at h1; exact Option.noConfusion h1
    · by_cases hz : symbol = "" ∨ symbol.trim = ""
      · rw [if_pos hz] at h1; exact Option.noConfusion h1
      · rw [if_neg hz, if_pos h] at h1; exact Option.noConfusion h1
    · by_cases hz : asset_type = ""
      · rw [if_pos hz] at h2; exact Option.noConfusion h2
      · rw [if_neg hz] at h2
        rw [h] at h2
        simp at h2
    · rw [if_pos h] at h3; exact Option.noConfusion h3
    · by_cases hz : entry_date = ""
      · rw [if_pos hz] at h3; exact Option.noConfusion h3
      · rw [if_neg hz, h] at h3
        simp at h3
    · rw [if_pos h] at h4; exact Option.noConfusion h4
    · rw [if_pos h] at h5; exact Option.noConfusion h5
    · by_cases hz : trade_type = ""
      · rw [if_pos hz] at h6; exact Option.noConfusion h6
      · rw [if_neg hz] at h6
        rw [h] at h6
        simp at h6

/-- An enriched position whose price fetch succeeded at 190. -/
def okEnrichedAAPL : EnrichedPosition :=
  get_position_with_live_price positionAAPL (.ok 190)

/-- Witness for the best/worst-performer theorem at a concrete two-element
portfolio with one valid and one failed position. -/
theorem best_worst_performer_spec_witness :
    List.filter pyValid [okEnrichedAAPL, errEnrichedAAPL] ≠ [] ∧
    (∃ b w,
      (calculate_portfolio_pnl [okEnrichedAAPL, errEnrichedAAPL]).best_performer = some b ∧
      (calculate_portfolio_pnl [okEnrichedAAPL, errEnrichedAAPL]).worst_performer = some w ∧
      b ∈ List.filter pyValid [okEnrichedAAPL, errEnrichedAAPL] ∧
      w ∈ List.filter pyValid [okEnrichedAAPL, errEnrichedAAPL] ∧
      (∀ e ∈ List.filter pyValid [okEnrichedAAPL, errEnrichedAAPL], pnlPctD e ≤ pnlPctD b) ∧
      (∀ e ∈ List.filter pyValid [okEnrichedAAPL, errEnrichedAAPL], pnlPctD w ≤ pnlPctD e) ∧
      (List.filter pyValid [okEnrichedAAPL, errEnrichedAAPL]).find?
        (fun x => decide (pnlPctD b ≤ pnlPctD x)) = some b ∧
      (List.filter pyValid [okEnrichedAAPL, errEnrichedAAPL]).find?
        (fun x => decide (pnlPctD x ≤ pnlPctD w)) = some w) :=
  ⟨by decide,
   (best_worst_performer_spec [okEnrichedAAPL, errEnrichedAAPL]).2 (by decide)⟩

/-- A stored position with zero entry price, hence zero entry value. -/
def zeroEntryPosition : Position :=
  { symbol := "ZERO", asset_type := "stock", entry_date := "2024-01-01"
    entry_price := 0, quantity := 5 }

/-- Witness for the division guards: a zero-entry-value position gets a
zero percentage, and the empty portfolio's overall percentage is 0. -/
theorem pnl_percent_zero_guard_witness :
    (get_position_with_live_price zeroEntryPosition (.ok 10)).unrealized_pnl_percent
      = some 0 ∧
    (calculate_portfolio_pnl ([] : List EnrichedPosition)).total_unrealized_pnl_percent
      = 0 :=
  ⟨(pnl_percent_zero_guard zeroEntryPosition 10 [] "stock").1
      (by simp [zeroEntryPosition]),
   (pnl_percent_zero_guard zeroEntryPosition 10 [] "stock").2.2.1
      (by norm_num [calculate_portfolio_pnl, LoopState.init])⟩

/-- Witness for the counter partition at a concrete mixed portfolio. -/
theorem position_counts_partition_witness :
    (∀ e ∈ [okEnrichedAAPL, errEnrichedAAPL],
      priceErrorTruthy e = true ∨ e.current_value.isSome = true) ∧
    (calculate_portfolio_pnl [okEnrichedAAPL, errEnrichedAAPL]).positions_with_data +
      (calculate_portfolio_pnl [okEnrichedAAPL, errEnrichedAAPL]).positions_with_errors =
      (calculate_portfolio_pnl [okEnrichedAAPL, errEnrichedAAPL]).total_positions :=
  ⟨by decide, position_counts_partition [okEnrichedAAPL, errEnrichedAAPL] (by decide)⟩

/-- A quote whose only positive candidate is the history close. -/
def stockQuoteExample : StockQuote :=
  { currentPrice := none, regularMarketPrice := some 0, previousClose := none
    fast_last_price := none, hist_last_close := some 5 }

/-- Witness for the equity-price priority theorem at a concrete quote. -/
theorem stock_price_first_positive_witness :
    "AAPL" ≠ "" ∧
    get_stock_price "AAPL" stockQuoteExample = stockPriceSpec "AAPL" stockQuoteExample :=
  ⟨by decide, stock_price_first_positive "AAPL" stockQuoteExample (by decide)⟩

/-- Witness for the crypto-price theorem at symbol `BTC`, the `kraken`
exchange and a ticker whose last price is 5. -/
theorem crypto_price_spec_witness :
    (['B', 'T', 'C'] : List Char) ≠ [] ∧ ("kraken" : String) ≠ "" ∧
    (pyLowerStrip "kraken" = "binance" ∨ pyLowerStrip "kraken" = "coinbase" ∨
      pyLowerStrip "kraken" = "kraken" ∨ (fun _ => false) (pyLowerStrip "kraken") = true) ∧
    (normalize_crypto_pair ['B', 'T', 'C'] = cryptoPairSpec ['B', 'T', 'C'] ∧
     normalize_crypto_pair ['B', 'T', 'C'] = ['B', 'T', 'C', '/', 'U', 'S', 'D', 'T'] ∧
     get_crypto_price_default ['B', 'T', 'C'] (fun _ => false) (fun _ _ => TickerLast.value 5) =
       get_crypto_price ['B', 'T', 'C'] "binance" (fun _ => false) (fun _ _ => TickerLast.value 5) ∧
     ((fun _ _ => TickerLast.value 5) (pyLowerStrip "kraken")
         (normalize_crypto_pair ['B', 'T', 'C']) = TickerLast.missing →
       ∃ m, get_crypto_price ['B', 'T', 'C'] "kraken" (fun _ => false)
         (fun _ _ => TickerLast.value 5) = .error m) ∧
     ((fun _ _ => TickerLast.value 5) (pyLowerStrip "kraken")
         (normalize_crypto_pair ['B', 'T', 'C']) = TickerLast.nonNumeric →
       ∃ m, get_crypto_price ['B', 'T', 'C'] "kraken" (fun _ => false)
         (fun _ _ => TickerLast.value 5) = .error m) ∧
     (∀ v, (fun _ _ => TickerLast.value 5) (pyLowerStrip "kraken")
         (normalize_crypto_pair ['B', 'T', 'C']) = TickerLast.value v →
       v ≤ 0 → ∃ m, get_crypto_price ['B', 'T', 'C'] "kraken" (fun _ => false)
         (fun _ _ => TickerLast.value 5) = .error m) ∧
     (∀ v, (fun _ _ => TickerLast.value 5) (pyLowerStrip "kraken")
         (normalize_crypto_pair ['B', 'T', 'C']) = TickerLast.value v →
       0 < v → get_crypto_price ['B', 'T', 'C'] "kraken" (fun _ => false)
         (fun _ _ => TickerLast.value 5) = .ok v)) :=
  ⟨by decide, by decide, by decide,
   crypto_price_spec ['B', 'T', 'C'] "kraken" (fun _ => false)
     (fun _ _ => TickerLast.value 5) (by decide) (by decide) (by decide)⟩

/-- Witness for the missing-id update theorem on empty stores. -/
theorem update_missing_id_not_found_witness :
    db_get_expense [] 1 = none ∧ db_get_position [] 2 = none ∧
    (pf_update_expense (fun _ => true) [] 1 none none none none =
      ([], .error ("Expense with ID " ++ toString 1 ++ " not found")) ∧
     op_update_position (fun _ => true) [] 2 none none none none none =
      ([], .error ("Position with ID " ++ toString 2 ++ " not found"))) :=
  ⟨rfl, rfl,
   update_missing_id_not_found (fun _ => true) [] 1 none none none none
     [] 2 none none none none none rfl rfl rfl rfl rfl⟩

/-- The empty trade store. -/
def emptyTradeStore : TradeStore := { rows := [], next_id := 1 }

/-- Witness for the add-trade validation theorem: `entry_price = -5` is
rejected and the store is unchanged. -/
theorem add_trade_invalid_rejected_witness :
    ((-5 : ℚ) ≤ 0) ∧
    (∃ m, tj_add_trade (fun _ => true) emptyTradeStore "AAPL" "stock" "2024-01-20"
      (-5) 10 "buy" "" "" = (emptyTradeStore, .error m)) :=
  ⟨by norm_num,
   add_trade_invalid_rejected (fun _ => true) emptyTradeStore "AAPL" "stock"
     "2024-01-20" (-5) 10 "buy" "" ""
     (Or.inr (Or.inr (Or.inr (Or.inr (Or.inr (Or.inl (by norm_num)))))))⟩
